import Mathlib

/-!
Verification of the specialization/matching core of the `exceptiongroup`
package (`src/exceptiongroup/_exception_group.py`).

The embedding models:
  - the nominal class hierarchy consulted by `issubclass`/`isinstance`
    (`PyClass`, `pySubclass`) as the external subtype capability;
  - classes produced by `ExceptionGroupMeta` as `EGClass` records, where
    the `id` field stands for Python object identity (`is`) and `baseId`
    for the identity of the `base_case` attribute;
  - the specialization cache `_specs_cache` as an association list keyed
    by the de-duplicated item list with frozenset (set-equality) lookup,
    inside a `Registry` that also carries a fresh-identity counter;
  - `ExceptionGroupMeta.__subclasscheck__` / `_subclasscheck_specialization`
    as boolean functions (the `for child in None` crash that Python raises
    when the subclass is unspecialized is modelled by an `Except` error);
  - `ExceptionGroup.__new__` / `__init__` / `__copy__` as state-passing
    functions returning `Except` results for the raised `TypeError` /
    `ValueError` variants.
-/

set_option autoImplicit false

/-- The finite universe of Python classes used to instantiate the model: a
fragment of the built-in exception hierarchy (`KeyboardInterrupt` derives
from `BaseException` but not `Exception`) plus the non-exception class
`str`. -/
inductive PyClass where
  | baseException
  | exception
  | keyboardInterrupt
  | lookupError
  | keyError
  | indexError
  | runtimeError
  | valueError
  | typeError
  | strClass
  deriving DecidableEq

/-- The proper ancestors of each class together with the class itself:
the linearized superclass chain of the modelled hierarchy. -/
def PyClass.ancestors : PyClass → List PyClass
  | .baseException => [.baseException]
  | .exception => [.exception, .baseException]
  | .keyboardInterrupt => [.keyboardInterrupt, .baseException]
  | .lookupError => [.lookupError, .exception, .baseException]
  | .keyError => [.keyError, .lookupError, .exception, .baseException]
  | .indexError => [.indexError, .lookupError, .exception, .baseException]
  | .runtimeError => [.runtimeError, .exception, .baseException]
  | .valueError => [.valueError, .exception, .baseException]
  | .typeError => [.typeError, .exception, .baseException]
  | .strClass => [.strClass]

/-- Python `issubclass(a, b)` on the modelled hierarchy. -/
def pySubclass (a b : PyClass) : Bool :=
  decide (b ∈ a.ancestors)

/-- `issubclass(c, BaseException)`: the validity check that
`ExceptionGroupMeta.__getitem__` applies to offered specialization
members. -/
def pyIsBaseExc (c : PyClass) : Bool :=
  pySubclass c .baseException

/-- A Python object offered as a group member, modelled by its runtime
class (`type(obj)`). -/
structure PyExc where
  ty : PyClass
  deriving DecidableEq

/-- The exceptions raised by the modelled code:
`alreadySpecialized` and `notBaseExcSubclass` are the two `TypeError`s of
`__getitem__`, `emptySpecialization` the `TypeError` of `__new__`,
`notException` the `TypeError` of `__init__` (carrying the offending
member), `sourceCountMismatch` the `ValueError` of `__init__` (carrying
both lengths), and `noneNotIterable` the `TypeError` Python raises when
`_subclasscheck_specialization` iterates over `specializations = None`. -/
inductive PyErr where
  | alreadySpecialized
  | notBaseExcSubclass
  | emptySpecialization
  | notException (exc : PyExc)
  | sourceCountMismatch (nSources nExceptions : Nat)
  | noneNotIterable
  deriving DecidableEq

/-- The spec's `InvalidSpecialization` family: the errors raised by the
subscript entry point. -/
def PyErr.isInvalidSpecialization : PyErr → Bool
  | .alreadySpecialized => true
  | .notBaseExcSubclass => true
  | _ => false

/-- An element of a specialization request: either a class or the
Ellipsis (`...`) inclusive marker. -/
inductive SpecItem (α : Type) where
  | ell : SpecItem α
  | cls : α → SpecItem α
  deriving DecidableEq

/-- Drop the Ellipsis marker, keep classes: `child for child in spec if
child is not ...`. -/
def specItemClass {α : Type} : SpecItem α → Option α
  | .ell => none
  | .cls c => some c

/-- A class produced by `ExceptionGroupMeta.__new__`.  `id` stands for
Python object identity, `baseId` for the identity of the `base_case`
attribute, and `specializations` is `None` for a base case or the tuple of
member classes for a specialization. -/
structure EGClass (α : Type) where
  id : Nat
  baseId : Nat
  inclusive : Bool
  specializations : Option (List α)
  deriving DecidableEq

/-- `ExceptionGroupMeta._subclasscheck_specialization` for a subclass whose
`specializations` attribute is a tuple: every filter member must be matched
by some value member, and, unless the filter is inclusive, every value
member must be a subclass of some filter member
(`issubclass(child, cls.specializations)` on a tuple means "of any"). -/
def subclasscheckSpecialization {α : Type} (issub : α → α → Bool)
    (clsSpecs : List α) (clsInclusive : Bool) (subSpecs : List α) : Bool :=
  let matched :=
    clsSpecs.all fun specialization =>
      subSpecs.any fun child => issub child specialization
  if !matched then false
  else if clsInclusive then true
  else !(subSpecs.any fun child => !(clsSpecs.any fun r => issub child r))

/-- `ExceptionGroupMeta.__subclasscheck__` between two classes produced by
the metaclass (classes without a `base_case` attribute are outside this
model).  When the filter is specialized but the subclass is the
unspecialized base, Python iterates over `None` and raises `TypeError`;
the lazy generators skip that iteration exactly when the filter's tuple is
empty and the filter is inclusive. -/
def subclasscheck {α : Type} (issub : α → α → Bool)
    (cls sub : EGClass α) : Except PyErr Bool :=
  if cls.id = sub.id then .ok true
  else if sub.baseId ≠ cls.baseId then .ok false
  else
    match cls.specializations with
    | none => .ok true
    | some specs =>
      match sub.specializations with
      | some subSpecs =>
        .ok (subclasscheckSpecialization issub specs cls.inclusive subSpecs)
      | none =>
        if specs.isEmpty && cls.inclusive then .ok true
        else .error .noneNotIterable

/-- The `_specs_cache` (a `WeakValueDictionary` keyed by frozensets) plus a
counter supplying fresh object identities; weak reclamation is not
exercised by the claims, so entries persist. -/
structure Registry (α : Type) where
  nextId : Nat
  cache : List (List (SpecItem α) × EGClass α)
  deriving DecidableEq

/-- Equality of the frozensets underlying two stored key lists. -/
def setEq {α : Type} [DecidableEq α] (a b : List α) : Bool :=
  decide (∀ x ∈ a, x ∈ b) && decide (∀ x ∈ b, x ∈ a)

/-- The class built on a cache miss in `_get_specialization`:
`inclusive` records whether `...` is among the requested items and
`specializations` is the tuple of the non-Ellipsis items; its `base_case`
is the class being subscripted. -/
def mkSpecializedCls {α : Type} [DecidableEq α] (cls : EGClass α)
    (freshId : Nat) (uniqueSpec : List (SpecItem α)) : EGClass α :=
  { id := freshId
    baseId := cls.id
    inclusive := decide (SpecItem.ell ∈ uniqueSpec)
    specializations := some (uniqueSpec.filterMap specItemClass) }

/-- `ExceptionGroupMeta._get_specialization`: de-duplicate the requested
items (`frozenset(item)`), look the set up in the cache, and on a miss
create, cache and return a fresh specialized class. -/
def getSpecialization {α : Type} [DecidableEq α] (cls : EGClass α)
    (reg : Registry α) (item : List (SpecItem α)) :
    EGClass α × Registry α :=
  match reg.cache.find? (fun p => setEq p.1 item.dedup) with
  | some p => (p.2, reg)
  | none =>
    (mkSpecializedCls cls reg.nextId item.dedup,
     { nextId := reg.nextId + 1
       cache := (item.dedup, mkSpecializedCls cls reg.nextId item.dedup) :: reg.cache })

/-- The argument of `ExceptionGroupMeta.__getitem__`: a single class, the
bare Ellipsis, or a tuple of classes and Ellipsis markers. -/
inductive GetItemArg (α : Type) where
  | single (c : α)
  | ell
  | tup (items : List (SpecItem α))

/-- The per-element validation of a tuple subscript:
`(child is ...) or issubclass(child, BaseException)`. -/
def specMemberOk {α : Type} (isBaseExc : α → Bool) : SpecItem α → Bool
  | .ell => true
  | .cls c => isBaseExc c

/-- `ExceptionGroupMeta.__getitem__`: refuse to re-specialize a class whose
`specializations` attribute is already a tuple, return the class itself for
the bare Ellipsis, validate the offered members, and delegate to
`_get_specialization`. -/
def getitem {α : Type} [DecidableEq α] (isBaseExc : α → Bool)
    (cls : EGClass α) (reg : Registry α) (arg : GetItemArg α) :
    Except PyErr (EGClass α) × Registry α :=
  if cls.specializations.isSome then (.error .alreadySpecialized, reg)
  else
    match arg with
    | .ell => (.ok cls, reg)
    | .single c =>
      if !isBaseExc c then (.error .notBaseExcSubclass, reg)
      else
        let out := getSpecialization cls reg [SpecItem.cls c]
        (.ok out.1, out.2)
    | .tup items =>
      if !(items.all (specMemberOk isBaseExc)) then
        (.error .notBaseExcSubclass, reg)
      else
        let out := getSpecialization cls reg items
        (.ok out.1, out.2)

/-- Claim-side predicate: some offered member is neither a recognized
error kind (a `BaseException` subclass) nor the open marker. -/
def invalidSpecArg {α : Type} (isBaseExc : α → Bool) : GetItemArg α → Bool
  | .ell => false
  | .single c => !isBaseExc c
  | .tup items =>
    items.any fun i =>
      match i with
      | .ell => false
      | .cls c => !isBaseExc c

/-- A grouped-error value: its runtime class (the kind), the stored
fields, and the chaining metadata that `__copy__` transfers
(`__traceback__`, `__context__`, `__cause__` modelled as opaque payloads,
plus `__suppress_context__`). -/
structure EGValue where
  cls : EGClass PyClass
  message : String
  exceptions : List PyExc
  sources : List String
  traceback : Option Nat
  context : Option Nat
  cause : Option Nat
  suppressContext : Bool
  deriving DecidableEq

/-- `ExceptionGroup.__new__`: through a specialized class, reject an empty
exceptions sequence and otherwise instantiate that very class; through an
unspecialized base, subscript the class with the tuple of the members'
runtime types. -/
def egNew (cls : EGClass PyClass) (reg : Registry PyClass)
    (exceptions : List PyExc) :
    Except PyErr (EGClass PyClass) × Registry PyClass :=
  match cls.specializations with
  | some _ =>
    if exceptions.isEmpty then (.error .emptySpecialization, reg)
    else (.ok cls, reg)
  | none =>
    getitem pyIsBaseExc cls reg
      (.tup (exceptions.map fun child => SpecItem.cls child.ty))

/-- `ExceptionGroup.__init__`: store the exceptions, reject the first one
that is not an `Exception` instance, then store message and sources and
reject a length mismatch. -/
def egInit (message : String) (exceptions : List PyExc)
    (sources : List String) :
    Except PyErr (String × List PyExc × List String) :=
  match exceptions.find? (fun exc => !pySubclass exc.ty .exception) with
  | some exc => .error (.notException exc)
  | none =>
    if sources.length ≠ exceptions.length then
      .error (.sourceCountMismatch sources.length exceptions.length)
    else .ok (message, exceptions, sources)

/-- Calling an exception-group class, i.e. `cls(message, exceptions,
sources)`: `__new__` picks (or creates) the instance's class, then
`__init__` validates and stores the fields; a fresh instance has no
traceback, context or cause and does not suppress its context. -/
def egCreate (cls : EGClass PyClass) (reg : Registry PyClass)
    (message : String) (exceptions : List PyExc) (sources : List String) :
    Except PyErr EGValue × Registry PyClass :=
  match egNew cls reg exceptions with
  | (.error e, regOut) => (.error e, regOut)
  | (.ok specialCls, regOut) =>
    match egInit message exceptions sources with
    | .error e => (.error e, regOut)
    | .ok _ =>
      (.ok { cls := specialCls
             message := message
             exceptions := exceptions
             sources := sources
             traceback := none
             context := none
             cause := none
             suppressContext := false }, regOut)

/-- Assigning to `__cause__` in Python implicitly sets
`__suppress_context__` to true. -/
def setCause (v : EGValue) (c : Option Nat) : EGValue :=
  { v with cause := c, suppressContext := true }

/-- `ExceptionGroup.__copy__`: rebuild through `self.__class__` with the
same message, exceptions and sources, then transfer `__traceback__`,
`__context__`, `__cause__` (which flips the suppression flag) and finally
`__suppress_context__`. -/
def egCopy (self : EGValue) (reg : Registry PyClass) :
    Except PyErr EGValue × Registry PyClass :=
  match egCreate self.cls reg self.message self.exceptions self.sources with
  | (.error e, regOut) => (.error e, regOut)
  | (.ok newGroup, regOut) =>
    let g1 := { newGroup with traceback := self.traceback }
    let g2 := { g1 with context := self.context }
    let g3 := setCause g2 self.cause
    let g4 := { g3 with suppressContext := self.suppressContext }
    (.ok g4, regOut)

/-- The unspecialized root class `ExceptionGroup` as produced by the
metaclass (`specializations = None` forces `inclusive = True` and
`base_case = cls`). -/
def rootEG : EGClass PyClass :=
  { id := 0, baseId := 0, inclusive := true, specializations := none }

/-- The initial registry: an empty cache and identities starting after the
root class. -/
def reg0 : Registry PyClass :=
  { nextId := 1, cache := [] }

/-- A registry is well formed when every cached class was built by
`_get_specialization` from its own key: its `inclusive` flag records
whether the key contains the Ellipsis marker and its `specializations`
tuple consists of the key's classes. -/
def Registry.WF {α : Type} [DecidableEq α] (reg : Registry α) : Prop :=
  ∀ p ∈ reg.cache,
    p.2.inclusive = decide (SpecItem.ell ∈ p.1) ∧
    p.2.specializations = some (p.1.filterMap specItemClass)

/-- The degenerate shape `ExceptionGroup[()]`, produced by subscripting the
root with an empty tuple: it has a declared (hence "already specialized")
member tuple which is empty. -/
def egEmptyTupleCls : EGClass PyClass :=
  { id := 1, baseId := 0, inclusive := false, specializations := some [] }

/-- The registry after creating `ExceptionGroup[()]` from the initial
state. -/
def regA : Registry PyClass :=
  { nextId := 2, cache := [([], egEmptyTupleCls)] }

/-- The shape `ExceptionGroup[KeyError]` as created next from `regA`. -/
def egKeyErrorCls : EGClass PyClass :=
  { id := 2, baseId := 0, inclusive := false,
    specializations := some [PyClass.keyError] }

/-- The registry after additionally creating `ExceptionGroup[KeyError]`. -/
def regB : Registry PyClass :=
  { nextId := 3
    cache := [([SpecItem.cls PyClass.keyError], egKeyErrorCls),
              ([], egEmptyTupleCls)] }

/-- The empty grouped error built through the unspecialized root: its
runtime class is `ExceptionGroup[()]`. -/
def emptyGroup : EGValue :=
  { cls := egEmptyTupleCls, message := "m", exceptions := [], sources := []
    traceback := none, context := none, cause := none
    suppressContext := false }

/-- A one-member grouped error of class `ExceptionGroup[KeyError]` with
chaining metadata attached and a chosen suppression flag. -/
def sampleGroup (suppress : Bool) : EGValue :=
  { cls := egKeyErrorCls, message := "m"
    exceptions := [⟨PyClass.keyError⟩], sources := ["s"]
    traceback := some 1, context := some 2, cause := some 3
    suppressContext := suppress }

/-! ## Helper lemmas -/

/-- `find?` only looks at the values of its predicate. -/
theorem list_find?_congr {α : Type} {p q : α → Bool} (l : List α)
    (h : ∀ x, p x = q x) : l.find? p = l.find? q := by
  induction l with
  | nil => rfl
  | cons a l ih => simp [List.find?, h a, ih]

/-- Membership in the class projection of a specialization-item list. -/
theorem mem_filterMap_specItemClass {α : Type} (l : List (SpecItem α)) (c : α) :
    c ∈ l.filterMap specItemClass ↔ SpecItem.cls c ∈ l := by
  simp only [List.mem_filterMap]
  constructor
  · rintro ⟨a, ha, hfa⟩
    cases a with
    | ell => simp [specItemClass] at hfa
    | cls d =>
      simp only [specItemClass, Option.some.injEq] at hfa
      subst hfa
      exact ha
  · intro hc
    exact ⟨SpecItem.cls c, hc, rfl⟩

/-- `setEq` decides equality of the underlying sets. -/
theorem setEq_iff {α : Type} [DecidableEq α] (a b : List α) :
    setEq a b = true ↔ ∀ x, x ∈ a ↔ x ∈ b := by
  simp only [setEq, Bool.and_eq_true, decide_eq_true_eq]
  constructor
  · rintro ⟨h1, h2⟩ x
    exact ⟨h1 x, h2 x⟩
  · intro h
    exact ⟨fun x hx => (h x).1 hx, fun x hx => (h x).2 hx⟩

/-- Evaluation of `_get_specialization` on a cache hit. -/
theorem getSpecialization_hit {α : Type} [DecidableEq α] (cls : EGClass α)
    (reg : Registry α) (item : List (SpecItem α))
    (p : List (SpecItem α) × EGClass α)
    (h : reg.cache.find? (fun q => setEq q.1 item.dedup) = some p) :
    getSpecialization cls reg item = (p.2, reg) := by
  unfold getSpecialization
  rw [h]

/-- Evaluation of `_get_specialization` on a cache miss. -/
theorem getSpecialization_miss {α : Type} [DecidableEq α] (cls : EGClass α)
    (reg : Registry α) (item : List (SpecItem α))
    (h : reg.cache.find? (fun q => setEq q.1 item.dedup) = none) :
    getSpecialization cls reg item =
      (mkSpecializedCls cls reg.nextId item.dedup,
       { nextId := reg.nextId + 1
         cache := (item.dedup, mkSpecializedCls cls reg.nextId item.dedup)
           :: reg.cache }) := by
  unfold getSpecialization
  rw [h]

/-- An `any` over pointwise-negated predicates is the negated `all`. -/
theorem any_eq_not_all {α : Type} (p q : α → Bool) (l : List α)
    (h : ∀ x, q x = !(p x)) : l.any q = !(l.all p) := by
  induction l with
  | nil => rfl
  | cons a l ih => simp [List.any_cons, List.all_cons, h a, ih, Bool.not_and]

/-! ## Claim C1 -/

/-- Claim C1: for a specialized filter shape (non-empty member list) the
specialization subtype check of `_subclasscheck_specialization` succeeds
iff every filter member is satisfied by at least one value member under
the nominal subtype relation and, unless the filter is inclusive, every
value member is a subtype-or-equal of some filter member; occurrences are
not counted, so the same member may participate in several matches. -/
theorem claim_C1 {α : Type} (issub : α → α → Bool)
    (fSpecs vSpecs : List α) (inclusive : Bool) (_hne : fSpecs ≠ []) :
    subclasscheckSpecialization issub fSpecs inclusive vSpecs = true ↔
      ((∀ r ∈ fSpecs, ∃ v ∈ vSpecs, issub v r = true) ∧
       (inclusive = true ∨ ∀ v ∈ vSpecs, ∃ r ∈ fSpecs, issub v r = true)) := by
  unfold subclasscheckSpecialization
  cases hm : fSpecs.all fun s => vSpecs.any fun c => issub c s <;>
    cases inclusive <;>
    simp_all [List.all_eq_true, List.any_eq_true]

/-- Witness for claim C1: a `KeyError` member satisfies an exact
`[LookupError]` filter. -/
theorem claim_C1_witness :
    ([PyClass.lookupError] ≠ ([] : List PyClass)) ∧
      (subclasscheckSpecialization pySubclass [PyClass.lookupError] false
          [PyClass.keyError] = true ↔
        ((∀ r ∈ [PyClass.lookupError], ∃ v ∈ [PyClass.keyError],
            pySubclass v r = true) ∧
         (false = true ∨ ∀ v ∈ [PyClass.keyError], ∃ r ∈ [PyClass.lookupError],
            pySubclass v r = true))) :=
  ⟨by decide, claim_C1 pySubclass [PyClass.lookupError] [PyClass.keyError]
      false (by decide)⟩

/-! ## Claim C5 -/

/-- Counterexample to claim C5 as stated: the shape `ExceptionGroup[()]`,
reachable by subscripting the root with an empty tuple, has an empty
member set, yet it does not match the same-base value shape
`ExceptionGroup[KeyError]` — only `specializations = None` filters accept
every specialization of their base. -/
theorem claim_C5_counterexample :
    getitem pyIsBaseExc rootEG reg0 (.tup []) = (.ok egEmptyTupleCls, regA) ∧
    egEmptyTupleCls.specializations = some [] ∧
    getitem pyIsBaseExc rootEG regA (.single PyClass.keyError) =
      (.ok egKeyErrorCls, regB) ∧
    egKeyErrorCls.baseId = egEmptyTupleCls.baseId ∧
    subclasscheck pySubclass egEmptyTupleCls egKeyErrorCls = .ok false :=
  ⟨rfl, rfl, rfl, rfl, rfl⟩

/-- Claim C5 as amended: for every filter shape that is unspecialized in
the source's sense — its `specializations` attribute is `None`, not a
declared (possibly empty) member tuple — and every value shape sharing its
base, the subclass check returns true. -/
theorem claim_C5 {α : Type} (issub : α → α → Bool) (F V : EGClass α)
    (hF : F.specializations = none) (hbase : V.baseId = F.baseId) :
    subclasscheck issub F V = .ok true := by
  unfold subclasscheck
  rw [hF]
  simp [hbase]

/-- Witness for the amended claim C5: the bare root accepts the
specialization `ExceptionGroup[KeyError]`. -/
theorem claim_C5_witness :
    subclasscheck pySubclass rootEG egKeyErrorCls = .ok true :=
  claim_C5 pySubclass rootEG egKeyErrorCls rfl rfl

/-! ## Claim C7 -/

/-- Counterexample to claim C7 as stated: subscripting the reachable shape
`ExceptionGroup[()]` with the perfectly valid member `KeyError` raises the
already-specialized error even though that shape's member set is empty, so
"already specialized" cannot be read as "non-empty members". -/
theorem claim_C7_counterexample :
    (getitem pyIsBaseExc rootEG reg0 (.tup [])).1 = .ok egEmptyTupleCls ∧
    egEmptyTupleCls.specializations = some [] ∧
    invalidSpecArg pyIsBaseExc (.single PyClass.keyError) = false ∧
    (getitem pyIsBaseExc egEmptyTupleCls regA (.single PyClass.keyError)).1 =
      .error .alreadySpecialized :=
  ⟨rfl, rfl, rfl, rfl⟩

/-- Claim C7 as amended: the subscript entry point fails exactly when an
offered member is neither a recognized error kind nor the open marker, or
when the subscripted shape already carries a declared specialization tuple
(possibly empty); every such failure is of the invalid-specialization
family and leaves the cache untouched. -/
theorem claim_C7 {α : Type} [DecidableEq α] (isBaseExc : α → Bool)
    (cls : EGClass α) (reg : Registry α) (arg : GetItemArg α) :
    ((∃ e, (getitem isBaseExc cls reg arg).1 = .error e) ↔
      (cls.specializations.isSome = true ∨
        invalidSpecArg isBaseExc arg = true)) ∧
    (∀ e, (getitem isBaseExc cls reg arg).1 = .error e →
      e.isInvalidSpecialization = true ∧
        (getitem isBaseExc cls reg arg).2 = reg) := by
  have hflip : ∀ items : List (SpecItem α),
      (items.any fun i =>
        match i with
        | .ell => false
        | .cls c => !isBaseExc c) =
      !(items.all (specMemberOk isBaseExc)) := by
    intro items
    refine any_eq_not_all _ _ items ?_
    intro x
    cases x <;> simp [specMemberOk]
  unfold getitem invalidSpecArg
  cases hs : cls.specializations.isSome
  · cases arg with
    | ell => simp
    | single c =>
      cases hc : isBaseExc c <;>
        simp [hc, PyErr.isInvalidSpecialization]
    | tup items =>
      cases hall : items.all (specMemberOk isBaseExc) <;>
        simp [hall, hflip items, PyErr.isInvalidSpecialization]
  · simp [PyErr.isInvalidSpecialization]

/-- Witness for the amended claim C7: offering the non-exception class
`str` to the root fails with a member-validation error, which belongs to
the invalid-specialization family and leaves the registry unchanged. -/
theorem claim_C7_witness :
    (getitem pyIsBaseExc rootEG reg0 (.single PyClass.strClass)).1 =
      .error PyErr.notBaseExcSubclass ∧
    PyErr.notBaseExcSubclass.isInvalidSpecialization = true ∧
    (getitem pyIsBaseExc rootEG reg0 (.single PyClass.strClass)).2 = reg0 :=
  ⟨rfl,
   ((claim_C7 pyIsBaseExc rootEG reg0 (.single PyClass.strClass)).2
      PyErr.notBaseExcSubclass rfl).1,
   ((claim_C7 pyIsBaseExc rootEG reg0 (.single PyClass.strClass)).2
      PyErr.notBaseExcSubclass rfl).2⟩

/-! ## Claim C2 -/

/-- Claim C2: two successive specialization requests on the same class
whose item tuples have equal frozensets yield the identical shape object;
member order and duplicates are irrelevant to shape identity. -/
theorem claim_C2 {α : Type} [DecidableEq α] (cls : EGClass α)
    (reg : Registry α) (t1 t2 : List (SpecItem α))
    (h : t1.toFinset = t2.toFinset) :
    (getSpecialization cls ((getSpecialization cls reg t1).2) t2).1 =
      (getSpecialization cls reg t1).1 := by
  have hmem : ∀ x, x ∈ t1.dedup ↔ x ∈ t2.dedup := by
    intro x
    rw [List.mem_dedup, List.mem_dedup, ← List.mem_toFinset,
      ← List.mem_toFinset, h]
  have hpred : ∀ a : List (SpecItem α),
      setEq a t2.dedup = setEq a t1.dedup := by
    intro a
    simp only [setEq]
    have e1 : (∀ x ∈ a, x ∈ t2.dedup) ↔ ∀ x ∈ a, x ∈ t1.dedup := by
      constructor
      · intro hh x hx
        exact (hmem x).2 (hh x hx)
      · intro hh x hx
        exact (hmem x).1 (hh x hx)
    have e2 : (∀ x ∈ t2.dedup, x ∈ a) ↔ ∀ x ∈ t1.dedup, x ∈ a := by
      constructor
      · intro hh x hx
        exact hh x ((hmem x).1 hx)
      · intro hh x hx
        exact hh x ((hmem x).2 hx)
    rw [decide_eq_decide.mpr e1, decide_eq_decide.mpr e2]
  cases hf : reg.cache.find? fun q => setEq q.1 t1.dedup with
  | some p =>
    rw [getSpecialization_hit cls reg t1 p hf]
    have hf2 : reg.cache.find? (fun q => setEq q.1 t2.dedup) = some p := by
      rw [list_find?_congr reg.cache fun q => hpred q.1]
      exact hf
    rw [getSpecialization_hit cls reg t2 p hf2]
  | none =>
    rw [getSpecialization_miss cls reg t1 hf]
    have hhead : setEq t1.dedup t2.dedup = true := (setEq_iff _ _).2 hmem
    have hf2 :
        ((t1.dedup, mkSpecializedCls cls reg.nextId t1.dedup) :: reg.cache).find?
            (fun q => setEq q.1 t2.dedup) =
          some (t1.dedup, mkSpecializedCls cls reg.nextId t1.dedup) := by
      simp [List.find?, hhead]
    exact congrArg Prod.fst
      (getSpecialization_hit cls _ t2 _ hf2)

/-- Witness for claim C2: requesting `{KeyError, RuntimeError}` with
different orders and a duplicate yields the identical shape object. -/
theorem claim_C2_witness :
    ([SpecItem.cls PyClass.keyError, SpecItem.cls PyClass.runtimeError,
        SpecItem.cls PyClass.keyError].toFinset =
      [SpecItem.cls PyClass.runtimeError,
        SpecItem.cls PyClass.keyError].toFinset) ∧
    (getSpecialization rootEG
        ((getSpecialization rootEG reg0
            [SpecItem.cls PyClass.keyError, SpecItem.cls PyClass.runtimeError,
              SpecItem.cls PyClass.keyError]).2)
        [SpecItem.cls PyClass.runtimeError,
          SpecItem.cls PyClass.keyError]).1 =
      (getSpecialization rootEG reg0
        [SpecItem.cls PyClass.keyError, SpecItem.cls PyClass.runtimeError,
          SpecItem.cls PyClass.keyError]).1 :=
  ⟨by decide,
   claim_C2 rootEG reg0
     [SpecItem.cls PyClass.keyError, SpecItem.cls PyClass.runtimeError,
       SpecItem.cls PyClass.keyError]
     [SpecItem.cls PyClass.runtimeError, SpecItem.cls PyClass.keyError]
     (by decide)⟩

/-! ## Claim C3 -/

/-- In a well-formed registry, the class delivered by
`_get_specialization` — cached or fresh — has the inclusive flag recording
the Ellipsis marker and exactly the requested classes as members. -/
theorem getSpecialization_spec {α : Type} [DecidableEq α] (cls : EGClass α)
    (reg : Registry α) (item : List (SpecItem α)) (hwf : reg.WF) :
    (getSpecialization cls reg item).1.inclusive =
        decide (SpecItem.ell ∈ item) ∧
      ∃ specs, (getSpecialization cls reg item).1.specializations = some specs ∧
        ∀ c, c ∈ specs ↔ SpecItem.cls c ∈ item := by
  cases hf : reg.cache.find? fun q => setEq q.1 item.dedup with
  | some p =>
    rw [getSpecialization_hit cls reg item p hf]
    have hp := hwf p (List.mem_of_find?_eq_some hf)
    have hpr : setEq p.1 item.dedup = true := by
      have := List.find?_some hf
      simpa using this
    have hmem := (setEq_iff _ _).1 hpr
    refine ⟨?_, p.1.filterMap specItemClass, hp.2, ?_⟩
    · rw [hp.1]
      exact decide_eq_decide.mpr (by rw [hmem SpecItem.ell, List.mem_dedup])
    · intro c
      rw [mem_filterMap_specItemClass, hmem (SpecItem.cls c), List.mem_dedup]
  | none =>
    rw [getSpecialization_miss cls reg item hf]
    refine ⟨?_, item.dedup.filterMap specItemClass, rfl, ?_⟩
    · exact decide_eq_decide.mpr List.mem_dedup
    · intro c
      rw [mem_filterMap_specItemClass, List.mem_dedup]

/-- Through the unspecialized root, `__new__` subscripts the root with the
tuple of the members' runtime types. -/
theorem egNew_root (reg : Registry PyClass) (exceptions : List PyExc) :
    egNew rootEG reg exceptions =
      getitem pyIsBaseExc rootEG reg
        (.tup (exceptions.map fun child => SpecItem.cls child.ty)) := rfl

/-- Evaluation of the root subscript on a validated tuple. -/
theorem getitem_root_tup (reg : Registry PyClass)
    (items : List (SpecItem PyClass))
    (hall : items.all (specMemberOk pyIsBaseExc) = true) :
    getitem pyIsBaseExc rootEG reg (.tup items) =
      (.ok (getSpecialization rootEG reg items).1,
       (getSpecialization rootEG reg items).2) := by
  unfold getitem
  simp only [rootEG, Option.isSome_none, Bool.false_eq_true, if_false]
  rw [hall]
  rfl

/-- Evaluation of the root subscript on a tuple with an invalid member. -/
theorem getitem_root_tup_fail (reg : Registry PyClass)
    (items : List (SpecItem PyClass))
    (hall : items.all (specMemberOk pyIsBaseExc) = false) :
    getitem pyIsBaseExc rootEG reg (.tup items) =
      (.error .notBaseExcSubclass, reg) := by
  unfold getitem
  simp only [rootEG, Option.isSome_none, Bool.false_eq_true, if_false]
  rw [hall]
  rfl

/-- Claim C3: a successful construction through the unspecialized root
produces a value whose kind has exactly the set of the members' runtime
classes (duplicates collapsed) as members and is non-inclusive (exact);
the kind is fixed by `__new__` and the embedding offers no setter. -/
theorem claim_C3 (reg : Registry PyClass) (hwf : reg.WF) (msg : String)
    (exceptions : List PyExc) (sources : List String) (v : EGValue)
    (regOut : Registry PyClass)
    (hok : egCreate rootEG reg msg exceptions sources = (.ok v, regOut)) :
    v.cls.inclusive = false ∧
      ∃ specs, v.cls.specializations = some specs ∧
        ∀ c, c ∈ specs ↔ c ∈ exceptions.map PyExc.ty := by
  unfold egCreate at hok
  rw [egNew_root reg exceptions] at hok
  cases hall : (exceptions.map fun child =>
      (SpecItem.cls child.ty : SpecItem PyClass)).all
        (specMemberOk pyIsBaseExc) with
  | false =>
    rw [getitem_root_tup_fail reg _ hall] at hok
    simp at hok
  | true =>
    rw [getitem_root_tup reg _ hall] at hok
    dsimp only at hok
    cases hi : egInit msg exceptions sources with
    | error e =>
      rw [hi] at hok
      simp at hok
    | ok tr =>
      rw [hi] at hok
      dsimp only at hok
      simp only [Prod.mk.injEq, Except.ok.injEq] at hok
      obtain ⟨hv, hreg⟩ := hok
      subst hv
      dsimp only
      have hspec := getSpecialization_spec rootEG reg
        (exceptions.map fun child => SpecItem.cls child.ty) hwf
      obtain ⟨hinc, specs, hspecs, hmem⟩ := hspec
      have hell : decide (SpecItem.ell ∈ exceptions.map fun child =>
          (SpecItem.cls child.ty : SpecItem PyClass)) = false := by
        simp
      refine ⟨by rw [hinc, hell], specs, hspecs, ?_⟩
      intro c
      rw [hmem c]
      simp

/-- Witness for claim C3: building a group of a duplicated `KeyError` and
a `RuntimeError` through the root derives the exact two-member kind. -/
theorem claim_C3_witness :
    Registry.WF reg0 ∧
    (∀ v regOut,
        egCreate rootEG reg0 "m"
            [⟨PyClass.keyError⟩, ⟨PyClass.keyError⟩, ⟨PyClass.runtimeError⟩]
            ["a", "b", "c"] = (.ok v, regOut) →
          v.cls.inclusive = false ∧
            ∃ specs, v.cls.specializations = some specs ∧
              ∀ c, c ∈ specs ↔ c ∈ [⟨PyClass.keyError⟩, ⟨PyClass.keyError⟩,
                (⟨PyClass.runtimeError⟩ : PyExc)].map PyExc.ty) :=
  ⟨fun p hp => absurd hp (by simp [reg0]),
   fun v regOut hok =>
     claim_C3 reg0 (fun p hp => absurd hp (by simp [reg0])) "m"
       [⟨PyClass.keyError⟩, ⟨PyClass.keyError⟩, ⟨PyClass.runtimeError⟩]
       ["a", "b", "c"] v regOut hok⟩

/-! ## Claim C4 -/

/-- A non-empty list is not `isEmpty`. -/
theorem isEmpty_false_of_ne_nil {α : Type} {l : List α} (h : l ≠ []) :
    l.isEmpty = false := by
  cases l with
  | nil => exact absurd rfl h
  | cons a t => rfl

/-- A list of valid `Exception` instances has no member failing the
`isinstance(exc, Exception)` check. -/
theorem find?_not_exception_eq_none (exceptions : List PyExc)
    (hvalid : ∀ e ∈ exceptions, pySubclass e.ty PyClass.exception = true) :
    exceptions.find? (fun exc => !pySubclass exc.ty PyClass.exception) =
      none := by
  apply List.find?_eq_none.2
  intro x hx
  simp [hvalid x hx]

/-- Claim C4: constructing through an already-specialized shape with
non-empty declared members and an empty exceptions sequence always fails
with the empty-specialization error, while constructing through the
unspecialized root with an empty exceptions sequence and equal-length
(hence empty) sources succeeds. -/
theorem claim_C4 :
    (∀ (cls : EGClass PyClass) (specs : List PyClass),
        cls.specializations = some specs → specs ≠ [] →
        ∀ (reg : Registry PyClass) (msg : String) (sources : List String),
          egCreate cls reg msg [] sources =
            (.error .emptySpecialization, reg)) ∧
    (∀ (reg : Registry PyClass) (msg : String) (sources : List String),
        sources.length = 0 →
        ∃ v regOut, egCreate rootEG reg msg [] sources = (.ok v, regOut)) := by
  constructor
  · intro cls specs hspec _hne reg msg sources
    unfold egCreate egNew
    rw [hspec]
    rfl
  · intro reg msg sources hlen
    rw [List.length_eq_zero] at hlen
    subst hlen
    unfold egCreate
    rw [egNew_root reg [], List.map_nil, getitem_root_tup reg [] rfl]
    exact ⟨_, _, rfl⟩

/-- Witness for claim C4: `ExceptionGroup[KeyError]("m", [], ["x"])` fails
while `ExceptionGroup("m", [], [])` succeeds. -/
theorem claim_C4_witness :
    egCreate egKeyErrorCls reg0 "m" [] ["x"] =
      (.error .emptySpecialization, reg0) ∧
    (∃ v regOut, egCreate rootEG reg0 "m" [] [] = (.ok v, regOut)) :=
  ⟨claim_C4.1 egKeyErrorCls [PyClass.keyError] rfl (by decide) reg0 "m" ["x"],
   claim_C4.2 reg0 "m" [] rfl⟩

/-! ## Claim C6 -/

/-- Counterexample to claim C6 as stated: the empty grouped error is
constructible through the root, but copying it fails with the
empty-specialization error because `__copy__` re-runs construction through
the value's specialized class `ExceptionGroup[()]`; so not every grouped
error can be copied. -/
theorem claim_C6_counterexample :
    egCreate rootEG reg0 "m" [] [] = (.ok emptyGroup, regA) ∧
    egCopy emptyGroup regA = (.error .emptySpecialization, regA) :=
  ⟨rfl, rfl⟩

/-- Claim C6 as amended: for every grouped error with at least one member
exception (and the construction-validated fields every real value has),
copy yields a new value with identical message, exceptions (same order),
sources and class, and transfers traceback, context, cause and — last,
after the cause assignment that forces it to true — the suppression flag,
which therefore equals the original's for both flag values. -/
theorem claim_C6 (G : EGValue) (reg : Registry PyClass)
    (hne : G.exceptions ≠ [])
    (hspec : G.cls.specializations.isSome = true)
    (hvalid : ∀ e ∈ G.exceptions, pySubclass e.ty PyClass.exception = true)
    (hlen : G.sources.length = G.exceptions.length) :
    ∃ g, egCopy G reg = (.ok g, reg) ∧
      g.message = G.message ∧ g.exceptions = G.exceptions ∧
      g.sources = G.sources ∧ g.cls = G.cls ∧
      g.traceback = G.traceback ∧ g.context = G.context ∧
      g.cause = G.cause ∧ g.suppressContext = G.suppressContext := by
  obtain ⟨specs, hs⟩ := Option.isSome_iff_exists.1 hspec
  have hnotempty : G.exceptions.isEmpty = false := isEmpty_false_of_ne_nil hne
  have hfind := find?_not_exception_eq_none G.exceptions hvalid
  unfold egCopy egCreate egNew egInit
  rw [hs, hnotempty, hfind]
  dsimp only
  rw [if_neg (show ¬G.sources.length ≠ G.exceptions.length from
    not_not_intro hlen)]
  dsimp only [setCause]
  exact ⟨_, rfl, rfl, rfl, rfl, rfl, rfl, rfl, rfl, rfl⟩

/-- Witness for the amended claim C6: copying a one-member group
reproduces all fields for both values of the suppression flag. -/
theorem claim_C6_witness :
    (∃ g, egCopy (sampleGroup false) reg0 = (.ok g, reg0) ∧
      g.message = (sampleGroup false).message ∧
      g.exceptions = (sampleGroup false).exceptions ∧
      g.sources = (sampleGroup false).sources ∧
      g.cls = (sampleGroup false).cls ∧
      g.traceback = (sampleGroup false).traceback ∧
      g.context = (sampleGroup false).context ∧
      g.cause = (sampleGroup false).cause ∧
      g.suppressContext = (sampleGroup false).suppressContext) ∧
    (∃ g, egCopy (sampleGroup true) reg0 = (.ok g, reg0) ∧
      g.message = (sampleGroup true).message ∧
      g.exceptions = (sampleGroup true).exceptions ∧
      g.sources = (sampleGroup true).sources ∧
      g.cls = (sampleGroup true).cls ∧
      g.traceback = (sampleGroup true).traceback ∧
      g.context = (sampleGroup true).context ∧
      g.cause = (sampleGroup true).cause ∧
      g.suppressContext = (sampleGroup true).suppressContext) :=
  ⟨claim_C6 (sampleGroup false) reg0 (by decide) (by decide) (by decide)
      (by decide),
   claim_C6 (sampleGroup true) reg0 (by decide) (by decide) (by decide)
      (by decide)⟩

/-! ## Claim C8 -/

/-- Claim C8: given that every member is a valid exception instance,
`__init__` fails with the source-count-mismatch error reporting both
lengths exactly when the lengths differ, and on equal lengths stores the
message, exceptions and sources unchanged (same order). -/
theorem claim_C8 (msg : String) (exceptions : List PyExc)
    (sources : List String)
    (hvalid : ∀ e ∈ exceptions, pySubclass e.ty PyClass.exception = true) :
    (egInit msg exceptions sources =
        .error (.sourceCountMismatch sources.length exceptions.length) ↔
      sources.length ≠ exceptions.length) ∧
    (sources.length = exceptions.length →
      egInit msg exceptions sources = .ok (msg, exceptions, sources)) := by
  have hfind := find?_not_exception_eq_none exceptions hvalid
  unfold egInit
  rw [hfind]
  by_cases h : sources.length = exceptions.length <;> simp [h]

/-- Witness for claim C8: one `ValueError` member with one source
succeeds; the mismatch characterization is instantiated at equal
lengths. -/
theorem claim_C8_witness :
    ((egInit "m" [PyExc.mk PyClass.valueError] ["a"] =
        .error (.sourceCountMismatch ["a"].length
          [PyExc.mk PyClass.valueError].length) ↔
      ["a"].length ≠ [PyExc.mk PyClass.valueError].length) ∧
     (["a"].length = [PyExc.mk PyClass.valueError].length →
       egInit "m" [PyExc.mk PyClass.valueError] ["a"] =
         .ok ("m", [PyExc.mk PyClass.valueError], ["a"]))) :=
  claim_C8 "m" [PyExc.mk PyClass.valueError] ["a"] (by decide)

/-! ## Claim C9 -/

/-- Claim C9: the member check of `__init__` (`isinstance(exc, Exception)`)
is strictly narrower than the specialization check of `__getitem__`
(`issubclass(cls, BaseException)`): every class passing the former passes
the latter, while a `KeyboardInterrupt` instance is rejected at
construction although its class is accepted as a specialization
argument. -/
theorem claim_C9 :
    (∀ c : PyClass, pySubclass c PyClass.exception = true →
      pyIsBaseExc c = true) ∧
    (pyIsBaseExc PyClass.keyboardInterrupt = true ∧
      pySubclass PyClass.keyboardInterrupt PyClass.exception = false) ∧
    (egCreate rootEG reg0 "m" [PyExc.mk PyClass.keyboardInterrupt] ["s"]).1 =
      .error (.notException (PyExc.mk PyClass.keyboardInterrupt)) ∧
    (∃ s, (getitem pyIsBaseExc rootEG reg0
      (.single PyClass.keyboardInterrupt)).1 = .ok s) := by
  refine ⟨?_, by decide, rfl, ⟨_, rfl⟩⟩
  intro c h
  cases c <;> revert h <;> decide

/-- Witness for claim C9: `KeyError` passes the narrow check and hence the
wide one. -/
theorem claim_C9_witness :
    pySubclass PyClass.keyError PyClass.exception = true ∧
    pyIsBaseExc PyClass.keyError = true :=
  ⟨by decide, claim_C9.1 PyClass.keyError (by decide)⟩

/-! ## Claim C10 -/

/-- Claim C10: construction through an already-specialized shape performs
no check that the members' runtime kinds match the declared
specialization: for any specialized shape with non-empty members and any
non-empty valid member list with matching sources, construction succeeds,
the registry is untouched, and the value's kind is the shape itself — the
kind is not re-derived from the members. -/
theorem claim_C10 (S : EGClass PyClass) (specs : List PyClass)
    (hS : S.specializations = some specs) (_hne : specs ≠ [])
    (reg : Registry PyClass) (msg : String) (exceptions : List PyExc)
    (sources : List String) (hex : exceptions ≠ [])
    (hvalid : ∀ e ∈ exceptions, pySubclass e.ty PyClass.exception = true)
    (hlen : sources.length = exceptions.length) :
    egCreate S reg msg exceptions sources =
      (.ok { cls := S, message := msg, exceptions := exceptions,
             sources := sources, traceback := none, context := none,
             cause := none, suppressContext := false }, reg) := by
  have hnotempty : exceptions.isEmpty = false := isEmpty_false_of_ne_nil hex
  have hfind := find?_not_exception_eq_none exceptions hvalid
  unfold egCreate egNew egInit
  rw [hS, hnotempty, hfind]
  dsimp only
  rw [if_neg (show ¬sources.length ≠ exceptions.length from
    not_not_intro hlen)]
  rfl

/-- Witness for claim C10: a `ValueError` member — whose kind is not in
the declared member set — is accepted by `ExceptionGroup[KeyError]` and
the resulting value's kind is `ExceptionGroup[KeyError]` itself. -/
theorem claim_C10_witness :
    egKeyErrorCls.specializations = some [PyClass.keyError] ∧
    (PyClass.valueError ∈ [PyClass.keyError] ↔ False) ∧
    egCreate egKeyErrorCls reg0 "m" [PyExc.mk PyClass.valueError] ["s"] =
      (.ok { cls := egKeyErrorCls, message := "m",
             exceptions := [PyExc.mk PyClass.valueError], sources := ["s"],
             traceback := none, context := none, cause := none,
             suppressContext := false }, reg0) :=
  ⟨rfl, by simp,
   claim_C10 egKeyErrorCls [PyClass.keyError] rfl (by decide) reg0 "m"
     [PyExc.mk PyClass.valueError] ["s"] (by decide) (by decide) (by decide)⟩
